import Mathlib

/-!
Verification development for the AI Interview Evaluation Platform.

The repository ships a React frontend (InterviewPage, ReportPage, auth
utilities, axios API client) together with a specification of the backend
asynchronous evaluation pipeline.  The backend source itself is not part of
the repository snapshot, so its components (SubmissionGateway,
EvaluationPipeline, ScoreParser, Store adapter) are modelled from the spec,
while frontend behaviour (status polling, report rendering, auth check,
response interceptor) is embedded from the source files.
-/

namespace AIEval

/-! ## Core data model -/

/-- Evaluation status enum, the `status` column of the evaluations table:
"pending", "completed" or "failed". -/
inductive EvalStatus
  | pending
  | completed
  | failed
deriving DecidableEq, Repr

/-- A status is terminal when it is completed or failed. -/
def EvalStatus.isTerminal : EvalStatus → Bool
  | .pending => false
  | .completed => true
  | .failed => true

/-- The four named score dimensions of an evaluation
(correctness, completeness, quality, communication), each a number. -/
structure Scores where
  correctness : Rat
  completeness : Rat
  quality : Rat
  communication : Rat
deriving DecidableEq, Repr

/-- EvaluationRecord: status plus optional scores payload, feedback,
suggestions and evaluated-at timestamp (flat record, as in the stored
entity; the invariant tying the optional fields to the status is proved,
not assumed). -/
structure EvaluationRecord where
  status : EvalStatus
  scores : Option Scores
  feedback : Option String
  suggestions : Option (List String)
  evaluatedAt : Option Nat
deriving DecidableEq, Repr

/-! ## C9: isAuthenticated (embedded from the auth utility source) -/

/-- Embedded from auth utilities `isAuthenticated`:
reads the stored token (`none` models localStorage returning null),
returns false on a falsy token, splits on "." and takes segment 1
(JS `token.split('.')[1]`; a missing segment makes `atob` throw inside the
try block), then decodes the payload segment.  `decodeExp` abstracts
`JSON.parse(atob(seg)).exp`: `none` models any throw caught by the
catch-all (invalid base64, invalid JSON) as well as a missing or
non-numeric `exp` claim (whose NaN comparison yields false in the source).
On success the source compares `Date.now() < payload.exp * 1000`. -/
def isAuthenticated (decodeExp : String → Option Int)
    (stored : Option String) (now : Int) : Bool :=
  match stored with
  | none => false
  | some token =>
    if token = "" then false
    else
      match (token.splitOn ".").get? 1 with
      | none => false
      | some seg =>
        match decodeExp seg with
        | none => false
        | some e => decide (now < e * 1000)

/-! ## C10: axios response interceptor (embedded from the API client source) -/

/-- The object the interceptor rejects with: a numeric status and a string
message. -/
structure RejectPayload where
  status : Int
  message : String
deriving DecidableEq, Repr

/-- Side effects the interceptor performs before rejecting. -/
structure InterceptorEffects where
  tokenRemoved : Bool
  redirectTo : Option String
deriving DecidableEq, Repr

/-- The three shapes of an axios error: a server response (with status and
an optional `detail` field of the response body), a request that got no
response, and a setup error with an optional message. -/
inductive AxiosFailure
  | response (status : Int) (detail : Option String)
  | request
  | setupError (message : Option String)

/-- Whitespace trimming as JS `String.prototype.trim`: drop leading and
trailing whitespace characters. -/
def jsTrim (s : String) : String :=
  ⟨((s.data.dropWhile Char.isWhitespace).reverse.dropWhile
      Char.isWhitespace).reverse⟩

/-- JS truthiness fallback `v || fallback` for an optional string: an
absent or empty string falls back. -/
def jsStringOr (v : Option String) (fallback : String) : String :=
  match v with
  | some s => if s = "" then fallback else s
  | none => fallback

/-- Embedded from the API client response interceptor: on a server error
response it removes the token and redirects to /login when the status is
401, and rejects with the status and `data.detail || 'An error occurred'`;
on a response-less request it rejects with status 0 and the network error
message; otherwise status 0 and `error.message || 'An unexpected error
occurred'`. -/
def responseInterceptorReject : AxiosFailure → RejectPayload × InterceptorEffects
  | .response st detail =>
      (⟨st, jsStringOr detail "An error occurred"⟩,
       if st = 401 then ⟨true, some "/login"⟩ else ⟨false, none⟩)
  | .request => (⟨0, "Network error. Please check your connection."⟩, ⟨false, none⟩)
  | .setupError msg => (⟨0, jsStringOr msg "An unexpected error occurred"⟩, ⟨false, none⟩)

/-! ## C8: frontend status polling loop (embedded from InterviewPage) -/

/-- Maximum number of polling attempts (`maxAttempts = 30` in the source). -/
def maxPollAttempts : Nat := 30

/-- Embedded from InterviewPage `pollEvaluationStatus`: counts how many
interval ticks run before the interval is cleared.  `fetch n` is the result
of the status request made on the tick when `attempts` has just been
incremented from `n` to `n + 1`: `none` models a rejected request (the
catch clears the interval), `some st` a fetched `evaluation_status`.  The
tick's work is: increment attempts, fetch, and clear the interval when the
status differs from pending or `attempts >= maxAttempts`.  `fuel` is
`maxAttempts - attempts`, so the recursion mirrors the attempts bound. -/
def pollTicks (fetch : Nat → Option EvalStatus) : Nat → Nat → Nat
  | _, 0 => 0
  | attempts, fuel + 1 =>
    match fetch attempts with
    | none => 1
    | some st => if st = .pending then 1 + pollTicks fetch (attempts + 1) fuel else 1

/-- Number of one-second polling iterations the loop performs for a given
sequence of fetch outcomes. -/
def pollCount (fetch : Nat → Option EvalStatus) : Nat :=
  pollTicks fetch 0 maxPollAttempts

/-! ## C3: ScoreParser (modelled from the spec; backend source absent) -/

/-- A JSON-like value, the shape of the structured segment located inside
the Assessor's raw textual response. -/
inductive Json
  | num (q : Rat)
  | str (s : String)
  | jbool (b : Bool)
  | jnull
  | arr (elems : List Json)
  | obj (fields : List (String × Json))

/-- First field of an object with the given name, `none` on non-objects. -/
def Json.getField : Json → String → Option Json
  | .obj fields, name => fields.lookup name
  | _, _ => none

/-- Reasons ScoreParser rejects a raw response. -/
inductive ScoreParseError
  | noStructuredSegment
  | missingField (name : String)
  | wrongType (name : String)
  | outOfRange (name : String)
  | emptyFeedback
deriving DecidableEq, Repr

/-- The validated payload ScoreParser produces: the four dimension scores,
feedback text and suggestion list. -/
structure EvaluationPayload where
  scores : Scores
  feedback : String
  suggestions : List String
deriving DecidableEq, Repr

/-- Modelled from the spec: validation of one named score dimension — the
field must be present, numeric, and within 0–10 inclusive. -/
def parseScoreField (j : Json) (name : String) : Except ScoreParseError Rat :=
  match j.getField name with
  | none => .error (.missingField name)
  | some (.num q) => if 0 ≤ q ∧ q ≤ 10 then .ok q else .error (.outOfRange name)
  | some _ => .error (.wrongType name)

/-- Modelled from the spec: `feedback` must be present, a string, and
non-empty after trimming. -/
def parseFeedbackField (j : Json) : Except ScoreParseError String :=
  match j.getField "feedback" with
  | none => .error (.missingField "feedback")
  | some (.str s) => if jsTrim s = "" then .error .emptyFeedback else .ok s
  | some _ => .error (.wrongType "feedback")

/-- All elements are strings, collected; `none` if any element is not. -/
def asStringList : List Json → Option (List String)
  | [] => some []
  | .str s :: rest => (asStringList rest).map (fun l => s :: l)
  | _ => none

/-- Modelled from the spec: `suggestions` must be present and be a list of
strings (possibly empty). -/
def parseSuggestionsField (j : Json) : Except ScoreParseError (List String) :=
  match j.getField "suggestions" with
  | none => .error (.missingField "suggestions")
  | some (.arr xs) =>
    match asStringList xs with
    | some l => .ok l
    | none => .error (.wrongType "suggestions")
  | some _ => .error (.wrongType "suggestions")

/-- Modelled from the spec: ScoreParser.Parse.  The input is the structured
segment located inside the raw Assessor response (`none` when the response
contains no structured segment at all).  Validation short-circuits: any
missing field, out-of-range value or wrong type yields a ParseError and
the payload is accepted in full or not at all. -/
def scoreParse (raw : Option Json) : Except ScoreParseError EvaluationPayload :=
  match raw with
  | none => .error .noStructuredSegment
  | some j =>
    match parseScoreField j "correctness" with
    | .error e => .error e
    | .ok c =>
      match parseScoreField j "completeness" with
      | .error e => .error e
      | .ok cp =>
        match parseScoreField j "quality" with
        | .error e => .error e
        | .ok q =>
          match parseScoreField j "communication" with
          | .error e => .error e
          | .ok cm =>
            match parseFeedbackField j with
            | .error e => .error e
            | .ok fb =>
              match parseSuggestionsField j with
              | .error e => .error e
              | .ok sg => .ok ⟨⟨c, cp, q, cm⟩, fb, sg⟩

/-- A named score field is valid: present, numeric, within 0–10. -/
def scoreFieldValid (j : Json) (name : String) : Prop :=
  ∃ q : Rat, j.getField name = some (.num q) ∧ 0 ≤ q ∧ q ≤ 10

/-- The spec's validity condition for a raw response: all four named score
dimensions valid, feedback a non-empty-after-trim string, suggestions a
list of strings. -/
def rawResponseValid (raw : Option Json) : Prop :=
  ∃ j, raw = some j ∧
    scoreFieldValid j "correctness" ∧
    scoreFieldValid j "completeness" ∧
    scoreFieldValid j "quality" ∧
    scoreFieldValid j "communication" ∧
    (∃ s, j.getField "feedback" = some (.str s) ∧ jsTrim s ≠ "") ∧
    (∃ xs l, j.getField "suggestions" = some (.arr xs) ∧ asStringList xs = some l)

/-! ## Store and EvaluationPipeline (modelled from the spec; backend source
absent) -/

/-- The durable key-value store of EvaluationRecords, keyed by Answer id
(at most one record per Answer id by construction). -/
abbrev Store := Nat → Option EvaluationRecord

/-- Write one record at one Answer id. -/
def Store.set (s : Store) (aid : Nat) (r : EvaluationRecord) : Store :=
  fun k => if k = aid then some r else s k

/-- StatusQuery / GetStatus: the status the store currently reports for an
Answer id (read-only, never triggers evaluation). -/
def Store.statusOf (s : Store) (aid : Nat) : Option EvalStatus :=
  (s aid).map EvaluationRecord.status

/-- Store with no records. -/
def emptyStore : Store := fun _ => none

/-- The record created synchronously with the Answer: pending, no scores
payload, no timestamp. -/
def pendingRecord : EvaluationRecord :=
  ⟨.pending, none, none, none, none⟩

/-- Terminal completed record carrying the parsed payload and the
evaluated-at timestamp. -/
def completedRecord (p : EvaluationPayload) (t : Nat) : EvaluationRecord :=
  ⟨.completed, some p.scores, some p.feedback, some p.suggestions, some t⟩

/-- Terminal failed record: evaluated-at set and no scores payload. -/
def failedRecord (t : Nat) : EvaluationRecord :=
  ⟨.failed, none, none, none, some t⟩

/-- Assessor failure classification from the spec: transient failures
(timeout, rate-limited) after the bounded retries are exhausted, or a
fatal failure. -/
inductive AssessorFailure
  | timeout
  | rateLimited
  | fatal (msg : String)

/-- The overall outcome of the Assessor call for one execution unit, after
the bounded retry policy has run its course: an error, or a raw response
whose located structured segment is the optional Json value. -/
abbrev AssessorOutcome := Except AssessorFailure (Option Json)

/-- Modelled from the spec: the EvaluationPipeline execution unit for one
Answer id.  It exits without writing when no record exists or the record
is already terminal (idempotency); from a pending record it writes
`completed` with the parsed payload when the Assessor succeeded and the
parse succeeded, and `failed` (no scores payload, evaluated-at set) on
Assessor failure or parse failure. -/
def runUnit (s : Store) (aid : Nat) (outcome : AssessorOutcome) (t : Nat) : Store :=
  match s aid with
  | none => s
  | some rec =>
    if rec.status.isTerminal then s
    else
      match outcome with
      | .error _ => s.set aid (failedRecord t)
      | .ok raw =>
        match scoreParse raw with
        | .ok p => s.set aid (completedRecord p t)
        | .error _ => s.set aid (failedRecord t)

/-- Modelled from the spec: the two store mutations of the pipeline — a
submission creating a fresh pending record, and a drive of the execution
unit for some Answer id. -/
inductive SysStep : Store → Store → Prop
  | submitAnswer (s : Store) (aid : Nat) (h : s aid = none) :
      SysStep s (s.set aid pendingRecord)
  | drive (s : Store) (aid : Nat) (outcome : AssessorOutcome) (t : Nat) :
      SysStep s (runUnit s aid outcome t)

/-- Zero or more pipeline steps. -/
def Steps : Store → Store → Prop :=
  Relation.ReflTransGen SysStep

/-- A store the pipeline can reach from the empty store. -/
def ReachableStore (s : Store) : Prop :=
  Steps emptyStore s

/-! ## C5/C7: SubmissionGateway (modelled from the spec; backend source
absent) -/

/-- A submission request: interview id, question id, answer text,
submitter id. -/
structure SubmitRequest where
  interviewId : Nat
  questionId : Nat
  answerText : String
  submitterId : Nat
deriving DecidableEq, Repr

/-- Caller-visible submission errors. -/
inductive SubmitError
  | notFound
  | invalidInput
  | forbidden
deriving DecidableEq, Repr

/-- The minimum trimmed answer length accepted (policy value 10, the
`min_length=10` of the answer submission schema). -/
def minAnswerLength : Nat := 10

/-- Backend state visible to the SubmissionGateway: existence and
visibility predicates over the relational data, the persisted answers,
the EvaluationRecord store, the ids handed to the background scheduler,
and the next Answer id. -/
structure BackendDb where
  interviewExists : Nat → Bool
  questionBelongs : Nat → Nat → Bool
  interviewVisibleTo : Nat → Nat → Bool
  answers : List (Nat × SubmitRequest)
  records : Store
  scheduled : List Nat
  nextAnswerId : Nat

/-- Modelled from the spec: SubmissionGateway.Submit.  Input-shape
validation (trimmed length below the minimum) rejects with InvalidInput
before any lookup; an absent interview or a question not belonging to it
rejects with NotFound; a submitter without access rejects with Forbidden.
On every rejection the state is returned unchanged: no Answer persisted,
no record created, nothing scheduled.  A valid submission persists the
Answer, creates a pending EvaluationRecord in the same unit of work,
emits exactly one scheduling event, and returns the new Answer id. -/
def submitAnswer (db : BackendDb) (r : SubmitRequest) :
    Except SubmitError Nat × BackendDb :=
  if (jsTrim r.answerText).length < minAnswerLength then
    (.error .invalidInput, db)
  else if !(db.interviewExists r.interviewId &&
            db.questionBelongs r.questionId r.interviewId) then
    (.error .notFound, db)
  else if !(db.interviewVisibleTo r.interviewId r.submitterId) then
    (.error .forbidden, db)
  else
    let aid := db.nextAnswerId
    (.ok aid,
     { db with
        answers := db.answers ++ [(aid, r)]
        records := db.records.set aid pendingRecord
        scheduled := db.scheduled ++ [aid]
        nextAnswerId := aid + 1 })

/-- Modelled from the spec: Submit with the Assessor in scope.  The
gateway only schedules evaluation; the Assessor is never invoked on the
synchronous path, so the result cannot depend on it — which is how the
latency-independence of the return is stated in a time-free model. -/
def submitWithAssessor
    (_assessor : String → String → String → AssessorOutcome)
    (db : BackendDb) (r : SubmitRequest) :
    Except SubmitError Nat × BackendDb :=
  submitAnswer db r

/-! ## C2/C4: report view (embedded from ReportPage) -/

/-- The evaluation object of a report entry as the frontend receives it. -/
structure EvaluationView where
  status : EvalStatus
  scores : Option Scores
  feedback : Option String
  suggestions : Option (List String)

/-- The answer object of a report entry. -/
structure AnswerView where
  answerText : String
  evaluation : Option EvaluationView

/-- What the ReportPage evaluation area renders for one question. -/
inductive EvalSection
  | scoreBars (scores : Option Scores) (feedback : Option String)
      (suggestions : Option (List String))
  | inProgress
  | failedNote
  | nothing

/-- Embedded from ReportPage: `hasEval` is
`question.answer?.evaluation?.status === 'completed'`. -/
def hasEval (av : AnswerView) : Bool :=
  match av.evaluation with
  | some ev => ev.status = .completed
  | none => false

/-- Embedded from ReportPage: the evaluation branch of the question card —
the four score bars with feedback and suggestions when `hasEval`, the
in-progress note when the status is pending, the failure note when failed,
nothing otherwise. -/
def renderEvalSection (av : AnswerView) : EvalSection :=
  match av.evaluation with
  | some ev =>
    if ev.status = .completed then .scoreBars ev.scores ev.feedback ev.suggestions
    else if ev.status = .pending then .inProgress
    else .failedNote
  | none => .nothing

/-- Embedded from ReportPage: `Object.values(scores)` of the four-dimension
scores object. -/
def scoreValues (sc : Scores) : List Rat :=
  [sc.correctness, sc.completeness, sc.quality, sc.communication]

/-- Embedded from ReportPage `avgScore`: the sum of the score values
divided by their count. -/
def avgScore (sc : Scores) : Rat :=
  (scoreValues sc).sum / ((scoreValues sc).length : Rat)

/-- The score sets of answers whose evaluation status is completed. -/
def completedScoreSets (evs : List EvaluationView) : List Scores :=
  evs.filterMap (fun e => if e.status = .completed then e.scores else none)

/-- Modelled from the spec: report aggregation's overall score — the mean
of per-answer mean-of-four-dimensions scores, taken only over answers with
status completed; null when no answer is completed. -/
def overallScore (evs : List EvaluationView) : Option Rat :=
  let cs := completedScoreSets evs
  if cs.isEmpty then none
  else some (((cs.map avgScore).sum) / (cs.length : Rat))

/-! ## Derived definitions used by the theorems -/

/-- The EvaluationRecord invariant of the spec: scores, feedback and
suggestions are each present exactly when the status is completed (hence
all present together or all absent). -/
def recordInvariant (r : EvaluationRecord) : Prop :=
  (r.scores.isSome = true ↔ r.status = .completed) ∧
  (r.feedback.isSome = true ↔ r.status = .completed) ∧
  (r.suggestions.isSome = true ↔ r.status = .completed)

/-- The scores of the spec's worked scenario. -/
def sampleScores : Scores := ⟨8, 6, 7, 7⟩

/-- The payload of the spec's worked scenario. -/
def samplePayload : EvaluationPayload :=
  ⟨sampleScores, "Correct but could mention worst case",
   ["Mention Big-O notation explicitly"]⟩

/-- A backend state whose existence and visibility predicates all hold,
with nothing yet persisted. -/
def openDb : BackendDb :=
  ⟨fun _ => true, fun _ _ => true, fun _ _ => true, [], emptyStore, [], 0⟩

/-- A status oracle that always reports completed. -/
def constCompletedFetch : Nat → Option EvalStatus := fun _ => some .completed

/-! ## Store lemmas -/

theorem Store.set_self (s : Store) (aid : Nat) (r : EvaluationRecord) :
    s.set aid r aid = some r := by
  simp [Store.set]

theorem Store.set_ne (s : Store) (aid k : Nat) (r : EvaluationRecord)
    (h : k ≠ aid) : s.set aid r k = s k := by
  simp [Store.set, h]

theorem runUnit_eq_or_write (s : Store) (aid : Nat) (out : AssessorOutcome)
    (t : Nat) :
    runUnit s aid out t = s ∨
    (s.statusOf aid = some .pending ∧
      ((∃ p, runUnit s aid out t = s.set aid (completedRecord p t)) ∨
        runUnit s aid out t = s.set aid (failedRecord t))) := by
  rcases hs : s aid with _ | rec
  · left
    simp [runUnit, hs]
  · by_cases ht : rec.status.isTerminal
    · left
      simp [runUnit, hs, ht]
    · have hpend : rec.status = .pending := by
        cases h : rec.status <;> simp [EvalStatus.isTerminal, h] at ht ⊢
      right
      refine ⟨by simp [Store.statusOf, hs, hpend], ?_⟩
      rcases out with f | raw
      · right
        simp [runUnit, hs, ht]
      · rcases hp : scoreParse raw with e | p
        · right
          simp [runUnit, hs, ht, hp]
        · left
          exact ⟨p, by simp [runUnit, hs, ht, hp]⟩

theorem sysStep_status_cases {s s' : Store} (h : SysStep s s') (k : Nat) :
    s'.statusOf k = s.statusOf k ∨
    (s.statusOf k = none ∧ s'.statusOf k = some .pending) ∨
    (s.statusOf k = some .pending ∧
      (s'.statusOf k = some .completed ∨ s'.statusOf k = some .failed)) := by
  cases h with
  | submitAnswer aid h0 =>
    by_cases hk : k = aid
    · subst hk
      right; left
      constructor
      · simp [Store.statusOf, h0]
      · simp [Store.statusOf, Store.set_self, pendingRecord]
    · left
      simp [Store.statusOf, Store.set_ne s aid k _ hk]
  | drive aid out t =>
    rcases runUnit_eq_or_write s aid out t with heq | ⟨hpend, hw⟩
    · left
      rw [heq]
    · by_cases hk : k = aid
      · subst hk
        right; right
        refine ⟨hpend, ?_⟩
        rcases hw with ⟨p, hw⟩ | hw
        · left
          simp [Store.statusOf, hw, Store.set_self, completedRecord]
        · right
          simp [Store.statusOf, hw, Store.set_self, failedRecord]
      · left
        rcases hw with ⟨p, hw⟩ | hw <;>
          simp [Store.statusOf, hw, Store.set_ne s aid k _ hk]

theorem sysStep_record_cases {s s' : Store} (h : SysStep s s') (k : Nat) :
    s' k = s k ∨ s' k = some pendingRecord ∨
    (∃ p t, s' k = some (completedRecord p t)) ∨
    (∃ t, s' k = some (failedRecord t)) := by
  cases h with
  | submitAnswer aid h0 =>
    by_cases hk : k = aid
    · subst hk
      right; left
      exact Store.set_self s k pendingRecord
    · left
      exact Store.set_ne s aid k _ hk
  | drive aid out t =>
    rcases runUnit_eq_or_write s aid out t with heq | ⟨hpend, hw⟩
    · left
      rw [heq]
    · by_cases hk : k = aid
      · subst hk
        rcases hw with ⟨p, hw⟩ | hw
        · right; right; left
          exact ⟨p, t, by rw [hw]; exact Store.set_self s k _⟩
        · right; right; right
          exact ⟨t, by rw [hw]; exact Store.set_self s k _⟩
      · left
        rcases hw with ⟨p, hw⟩ | hw <;> rw [hw] <;>
          exact Store.set_ne s aid k _ hk

theorem sysStep_terminal_stable {s s' : Store} (h : SysStep s s')
    (aid : Nat) (st : EvalStatus) (hst : s.statusOf aid = some st)
    (hterm : st.isTerminal = true) : s'.statusOf aid = some st := by
  rcases sysStep_status_cases h aid with heq | ⟨hnone, _⟩ | ⟨hpend, _⟩
  · rw [heq, hst]
  · rw [hst] at hnone
    simp at hnone
  · rw [hst] at hpend
    injection hpend with h'
    subst h'
    simp [EvalStatus.isTerminal] at hterm

theorem steps_terminal_stable {s s' : Store} (h : Steps s s')
    (aid : Nat) (st : EvalStatus) (hst : s.statusOf aid = some st)
    (hterm : st.isTerminal = true) : s'.statusOf aid = some st := by
  induction h with
  | refl => exact hst
  | tail _ hstep ih => exact sysStep_terminal_stable hstep aid st ih hterm

/-! ## Claim theorems -/

/-- Claim C1: for every Answer id with a created EvaluationRecord, the status only
moves forward along pending → (completed | failed): once a terminal status
has been reported for the id, every later GetStatus observation over any
number of pipeline steps reports the same status, and any single step that
changes an observed status goes from pending to a terminal status — never
back to pending and never between terminal states. -/
theorem evaluation_status_forward_only :
    (∀ s s' : Store, Steps s s' → ∀ aid st, s.statusOf aid = some st →
        st.isTerminal = true → s'.statusOf aid = some st) ∧
    (∀ s s' : Store, SysStep s s' → ∀ aid st st',
        s.statusOf aid = some st → s'.statusOf aid = some st' → st ≠ st' →
        st = .pending ∧ st'.isTerminal = true) := by
  constructor
  · intro s s' h aid st hst hterm
    exact steps_terminal_stable h aid st hst hterm
  · intro s s' h aid st st' hst hst' hne
    rcases sysStep_status_cases h aid with heq | ⟨hnone, _⟩ | ⟨hpend, hterm⟩
    · rw [heq, hst] at hst'
      injection hst' with h'
      exact absurd h' hne
    · rw [hst] at hnone
      simp at hnone
    · rw [hst] at hpend
      injection hpend with hp
      refine ⟨hp, ?_⟩
      rcases hterm with hc | hf
      · rw [hst'] at hc
        injection hc with h'
        rw [h']
        rfl
      · rw [hst'] at hf
        injection hf with h'
        rw [h']
        rfl

/-- Witness for C1: a store holding a completed record for Answer id 1,
re-driven by the execution unit with an Assessor timeout, still reports
completed for id 1. -/
theorem evaluation_status_forward_only_witness :
    ((emptyStore.set 1 (completedRecord samplePayload 3)).statusOf 1 =
        some .completed) ∧
    EvalStatus.completed.isTerminal = true ∧
    ((runUnit (emptyStore.set 1 (completedRecord samplePayload 3)) 1
        (.error .timeout) 9).statusOf 1 = some .completed) :=
  ⟨rfl, rfl,
    evaluation_status_forward_only.1 _ _
      (Relation.ReflTransGen.single
        (SysStep.drive (emptyStore.set 1 (completedRecord samplePayload 3)) 1
          (.error .timeout) 9))
      1 .completed rfl rfl⟩

theorem recordInvariant_pendingRecord : recordInvariant pendingRecord := by
  simp [recordInvariant, pendingRecord]

theorem recordInvariant_completedRecord (p : EvaluationPayload) (t : Nat) :
    recordInvariant (completedRecord p t) := by
  simp [recordInvariant, completedRecord]

theorem recordInvariant_failedRecord (t : Nat) :
    recordInvariant (failedRecord t) := by
  simp [recordInvariant, failedRecord]

theorem sysStep_preserves_invariant {s s' : Store} (h : SysStep s s')
    (hinv : ∀ aid r, s aid = some r → recordInvariant r) :
    ∀ aid r, s' aid = some r → recordInvariant r := by
  intro aid r hr
  rcases sysStep_record_cases h aid with heq | hp | ⟨p, t, hc⟩ | ⟨t, hf⟩
  · exact hinv aid r (heq ▸ hr)
  · rw [hp] at hr
    injection hr with h'
    rw [← h']
    exact recordInvariant_pendingRecord
  · rw [hc] at hr
    injection hr with h'
    rw [← h']
    exact recordInvariant_completedRecord p t
  · rw [hf] at hr
    injection hr with h'
    rw [← h']
    exact recordInvariant_failedRecord t

/-- Claim C2: for every EvaluationRecord in a store the pipeline can reach, the
scores mapping, feedback text and suggestions list are each present exactly
when the record's status is completed (so all present together or all
absent); and the ReportPage evaluation area renders the four score bars,
feedback and suggestions only for records whose status is completed. -/
theorem scores_present_iff_completed :
    (∀ s : Store, ReachableStore s → ∀ aid r, s aid = some r →
        recordInvariant r) ∧
    (∀ av sc fb sg, renderEvalSection av = .scoreBars sc fb sg →
        ∃ ev, av.evaluation = some ev ∧ ev.status = .completed) := by
  constructor
  · intro s hreach
    induction hreach with
    | refl =>
      intro aid r hr
      simp [emptyStore] at hr
    | tail _ hstep ih =>
      exact sysStep_preserves_invariant hstep ih
  · intro av sc fb sg hrender
    rcases hev : av.evaluation with _ | ev
    · simp [renderEvalSection, hev] at hrender
    · refine ⟨ev, rfl, ?_⟩
      by_cases hc : ev.status = .completed
      · exact hc
      · by_cases hp : ev.status = .pending <;>
          simp [renderEvalSection, hev, hc, hp] at hrender

/-- Witness for C2: the store holding the pending record created by a
submission for Answer id 1 is reachable, and that record satisfies the
presence invariant. -/
theorem scores_present_iff_completed_witness :
    ((emptyStore.set 1 pendingRecord) 1 = some pendingRecord) ∧
    recordInvariant pendingRecord :=
  ⟨rfl,
    scores_present_iff_completed.1 _
      (Relation.ReflTransGen.single (SysStep.submitAnswer emptyStore 1 rfl))
      1 pendingRecord rfl⟩

/-- Claim C6: the execution unit is idempotent with respect to terminal records —
for every Answer id whose EvaluationRecord is already terminal (completed
or failed), re-invoking the execution unit writes nothing: the store after
re-invocation equals the store before. -/
theorem runUnit_idempotent_on_terminal :
    ∀ (s : Store) (aid : Nat) (outcome : AssessorOutcome) (t : Nat)
      (rec : EvaluationRecord), s aid = some rec →
      rec.status.isTerminal = true → runUnit s aid outcome t = s := by
  intro s aid outcome t rec h ht
  simp [runUnit, h, ht]

/-- Witness for C6: re-driving the unit on a store whose record for Answer
id 1 is already failed leaves the store unchanged. -/
theorem runUnit_idempotent_on_terminal_witness :
    ((emptyStore.set 1 (failedRecord 2)) 1 = some (failedRecord 2)) ∧
    EvalStatus.failed.isTerminal = true ∧
    runUnit (emptyStore.set 1 (failedRecord 2)) 1 (.ok none) 9 =
      emptyStore.set 1 (failedRecord 2) :=
  ⟨rfl, rfl,
    runUnit_idempotent_on_terminal (emptyStore.set 1 (failedRecord 2)) 1
      (.ok none) 9 (failedRecord 2) rfl rfl⟩

/-! ## ScoreParser lemmas -/

theorem parseScoreField_ok_iff (j : Json) (name : String) :
    (∃ q, parseScoreField j name = .ok q) ↔ scoreFieldValid j name := by
  constructor
  · rintro ⟨q, hq⟩
    rcases hg : j.getField name with _ | v
    · simp [parseScoreField, hg] at hq
    · cases v with
      | num x =>
        by_cases hr : 0 ≤ x ∧ x ≤ 10
        · simp [parseScoreField, hg, hr] at hq
          exact ⟨x, hg, hr.1, hr.2⟩
        · simp [parseScoreField, hg, hr] at hq
      | str s => simp [parseScoreField, hg] at hq
      | jbool b => simp [parseScoreField, hg] at hq
      | jnull => simp [parseScoreField, hg] at hq
      | arr xs => simp [parseScoreField, hg] at hq
      | obj fs => simp [parseScoreField, hg] at hq
  · rintro ⟨q, hg, h0, h10⟩
    exact ⟨q, by simp [parseScoreField, hg, h0, h10]⟩

theorem parseFeedbackField_ok_iff (j : Json) :
    (∃ s, parseFeedbackField j = .ok s) ↔
    (∃ s, j.getField "feedback" = some (.str s) ∧ jsTrim s ≠ "") := by
  constructor
  · rintro ⟨s, hs⟩
    rcases hg : j.getField "feedback" with _ | v
    · simp [parseFeedbackField, hg] at hs
    · cases v with
      | str x =>
        by_cases hx : jsTrim x = ""
        · simp [parseFeedbackField, hg, hx] at hs
        · exact ⟨x, rfl, hx⟩
      | num q => simp [parseFeedbackField, hg] at hs
      | jbool b => simp [parseFeedbackField, hg] at hs
      | jnull => simp [parseFeedbackField, hg] at hs
      | arr xs => simp [parseFeedbackField, hg] at hs
      | obj fs => simp [parseFeedbackField, hg] at hs
  · rintro ⟨s, hg, hne⟩
    exact ⟨s, by simp [parseFeedbackField, hg, hne]⟩

theorem parseSuggestionsField_ok_iff (j : Json) :
    (∃ l, parseSuggestionsField j = .ok l) ↔
    (∃ xs l, j.getField "suggestions" = some (.arr xs) ∧
      asStringList xs = some l) := by
  constructor
  · rintro ⟨l, hl⟩
    rcases hg : j.getField "suggestions" with _ | v
    · simp [parseSuggestionsField, hg] at hl
    · cases v with
      | arr xs =>
        rcases hxs : asStringList xs with _ | l'
        · simp [parseSuggestionsField, hg, hxs] at hl
        · exact ⟨xs, l', rfl, hxs⟩
      | num q => simp [parseSuggestionsField, hg] at hl
      | str s => simp [parseSuggestionsField, hg] at hl
      | jbool b => simp [parseSuggestionsField, hg] at hl
      | jnull => simp [parseSuggestionsField, hg] at hl
      | obj fs => simp [parseSuggestionsField, hg] at hl
  · rintro ⟨xs, l, hg, hxs⟩
    exact ⟨l, by simp [parseSuggestionsField, hg, hxs]⟩

/-- Claim C3: ScoreParser accepts a raw Assessor response exactly when all four
named score dimensions are present, numeric and within 0–10 inclusive,
feedback is a string that is non-empty after trimming, and suggestions is
a list of strings; every other response yields a ParseError (no partial
acceptance), and an EvaluationRecord that is not completed never
transitions to completed from a response the parser rejects. -/
theorem scoreParse_valid_iff :
    (∀ raw, (∃ p, scoreParse raw = .ok p) ↔ rawResponseValid raw) ∧
    (∀ (s : Store) (aid : Nat) (raw : Option Json) (t : Nat)
        (e : ScoreParseError), scoreParse raw = .error e →
        s.statusOf aid ≠ some .completed →
        (runUnit s aid (.ok raw) t).statusOf aid ≠ some .completed) := by
  constructor
  · intro raw
    constructor
    · rintro ⟨p, hp⟩
      rcases raw with _ | j
      · simp [scoreParse] at hp
      · rcases h1 : parseScoreField j "correctness" with e | c
        · simp [scoreParse, h1] at hp
        rcases h2 : parseScoreField j "completeness" with e | cp
        · simp [scoreParse, h1, h2] at hp
        rcases h3 : parseScoreField j "quality" with e | q
        · simp [scoreParse, h1, h2, h3] at hp
        rcases h4 : parseScoreField j "communication" with e | cm
        · simp [scoreParse, h1, h2, h3, h4] at hp
        rcases h5 : parseFeedbackField j with e | fb
        · simp [scoreParse, h1, h2, h3, h4, h5] at hp
        rcases h6 : parseSuggestionsField j with e | sg
        · simp [scoreParse, h1, h2, h3, h4, h5, h6] at hp
        refine ⟨j, rfl,
          (parseScoreField_ok_iff j "correctness").mp ⟨c, h1⟩,
          (parseScoreField_ok_iff j "completeness").mp ⟨cp, h2⟩,
          (parseScoreField_ok_iff j "quality").mp ⟨q, h3⟩,
          (parseScoreField_ok_iff j "communication").mp ⟨cm, h4⟩,
          (parseFeedbackField_ok_iff j).mp ⟨fb, h5⟩,
          (parseSuggestionsField_ok_iff j).mp ⟨sg, h6⟩⟩
    · rintro ⟨j, rfl, hc, hcp, hq, hcm, hfb, hsg⟩
      obtain ⟨c, h1⟩ := (parseScoreField_ok_iff j "correctness").mpr hc
      obtain ⟨cp, h2⟩ := (parseScoreField_ok_iff j "completeness").mpr hcp
      obtain ⟨q, h3⟩ := (parseScoreField_ok_iff j "quality").mpr hq
      obtain ⟨cm, h4⟩ := (parseScoreField_ok_iff j "communication").mpr hcm
      obtain ⟨fb, h5⟩ := (parseFeedbackField_ok_iff j).mpr hfb
      obtain ⟨sg, h6⟩ := (parseSuggestionsField_ok_iff j).mpr hsg
      exact ⟨⟨⟨c, cp, q, cm⟩, fb, sg⟩,
        by simp [scoreParse, h1, h2, h3, h4, h5, h6]⟩
  · intro s aid raw t e he hnc
    rcases hs : s aid with _ | rec
    · simpa [runUnit, hs] using hnc
    · by_cases ht : rec.status.isTerminal
      · simpa [runUnit, hs, ht] using hnc
      · simp [runUnit, hs, ht, he, Store.statusOf, Store.set_self,
          failedRecord]

/-- Witness for C3: a response carrying only a correctness score is
rejected with a missing-field ParseError, and driving the unit on the
pending record for Answer id 1 with that response does not produce a
completed status. -/
theorem scoreParse_valid_iff_witness :
    scoreParse (some (.obj [("correctness", .num 8)])) =
      .error (.missingField "completeness") ∧
    (emptyStore.set 1 pendingRecord).statusOf 1 ≠ some .completed ∧
    (runUnit (emptyStore.set 1 pendingRecord) 1
        (.ok (some (.obj [("correctness", .num 8)]))) 7).statusOf 1 ≠
      some .completed :=
  ⟨by rfl, by decide,
    scoreParse_valid_iff.2 (emptyStore.set 1 pendingRecord) 1
      (some (.obj [("correctness", .num 8)])) 7
      (.missingField "completeness") (by rfl) (by decide)⟩

/-- Claim C4: the report's overall score is the arithmetic mean, over answers
whose evaluation status is completed, of each answer's mean of its four
dimension scores; the per-answer score shown by the report equals the mean
of the four dimension scores; a report with exactly one completed answer
shows that answer's mean as overall, and for scores
correctness 8, completeness 6, quality 7, communication 7 both equal 7. -/
theorem report_overall_score_mean :
    (∀ sc : Scores, avgScore sc =
      (sc.correctness + sc.completeness + sc.quality + sc.communication) / 4) ∧
    (∀ (sc : Scores) (fb : Option String) (sg : Option (List String)),
      overallScore [⟨.completed, some sc, fb, sg⟩] = some (avgScore sc)) ∧
    avgScore sampleScores = 7 ∧
    overallScore [⟨.completed, some sampleScores,
      some "Correct but could mention worst case",
      some ["Mention Big-O notation explicitly"]⟩] = some 7 ∧
    (∀ evs, overallScore evs =
      if (completedScoreSets evs).isEmpty then none
      else some ((((completedScoreSets evs).map avgScore).sum) /
        ((completedScoreSets evs).length : Rat))) := by
  refine ⟨?_, ?_, ?_, ?_, ?_⟩
  · intro sc
    simp [avgScore, scoreValues]
    ring
  · intro sc fb sg
    simp [overallScore, completedScoreSets]
  · norm_num [avgScore, scoreValues, sampleScores]
  · norm_num [overallScore, completedScoreSets, List.filterMap_cons,
      List.filterMap_nil, avgScore, scoreValues, sampleScores]
  · intro evs
    rfl

/-- Claim C5: a submission whose trimmed answer text is shorter than the minimum
threshold of 10 characters is rejected with InvalidInput and leaves the
backend state unchanged — no Answer persisted, no record created, no
evaluation scheduled — and every accepted submission has trimmed length at
least the threshold. -/
theorem submit_rejects_short_answers :
    (∀ (db : BackendDb) (r : SubmitRequest),
        (jsTrim r.answerText).length < minAnswerLength →
        submitAnswer db r = (.error .invalidInput, db)) ∧
    (∀ (db : BackendDb) (r : SubmitRequest) (aid : Nat) (db' : BackendDb),
        submitAnswer db r = (.ok aid, db') →
        minAnswerLength ≤ (jsTrim r.answerText).length) := by
  constructor
  · intro db r h
    simp [submitAnswer, h]
  · intro db r aid db' hsub
    by_cases h : (jsTrim r.answerText).length < minAnswerLength
    · simp [submitAnswer, h] at hsub
    · exact Nat.le_of_not_lt h

/-- Witness for C5: submitting the nine-character answer "too short" to an
open backend is rejected with InvalidInput and changes nothing. -/
theorem submit_rejects_short_answers_witness :
    ((jsTrim "too short").length < minAnswerLength) ∧
    submitAnswer openDb ⟨1, 1, "too short", 1⟩ =
      (.error .invalidInput, openDb) :=
  ⟨by decide,
    submit_rejects_short_answers.1 openDb ⟨1, 1, "too short", 1⟩ (by decide)⟩

/-- Claim C7: Submit never touches the Assessor on the synchronous path — its
result is identical under any two Assessors, which is the latency-free
statement that it returns without waiting for evaluation to start or
finish — and every valid submission persists the Answer together with a
pending EvaluationRecord, emits exactly one scheduling event, and returns
the new Answer id. -/
theorem submit_independent_of_assessor :
    (∀ (a₁ a₂ : String → String → String → AssessorOutcome)
        (db : BackendDb) (r : SubmitRequest),
        submitWithAssessor a₁ db r = submitWithAssessor a₂ db r) ∧
    (∀ (db : BackendDb) (r : SubmitRequest),
        minAnswerLength ≤ (jsTrim r.answerText).length →
        (db.interviewExists r.interviewId &&
          db.questionBelongs r.questionId r.interviewId) = true →
        db.interviewVisibleTo r.interviewId r.submitterId = true →
        ∃ db', submitAnswer db r = (.ok db.nextAnswerId, db') ∧
          db'.records.statusOf db.nextAnswerId = some .pending ∧
          (db.nextAnswerId, r) ∈ db'.answers ∧
          db'.scheduled = db.scheduled ++ [db.nextAnswerId]) := by
  constructor
  · intro a₁ a₂ db r
    rfl
  · intro db r hlen hfound hvis
    refine ⟨{ db with
        answers := db.answers ++ [(db.nextAnswerId, r)]
        records := db.records.set db.nextAnswerId pendingRecord
        scheduled := db.scheduled ++ [db.nextAnswerId]
        nextAnswerId := db.nextAnswerId + 1 }, ?_, ?_, ?_, ?_⟩
    · simp [submitAnswer, not_lt.mpr hlen, hfound, hvis]
    · simp [Store.statusOf, Store.set_self, pendingRecord]
    · simp
    · rfl

/-- Witness for C7: a valid 29-character submission to an open backend is
accepted with Answer id 0, a pending record and one scheduling event. -/
theorem submit_independent_of_assessor_witness :
    (minAnswerLength ≤ (jsTrim "O(n) because it iterates once").length) ∧
    (openDb.interviewExists 1 && openDb.questionBelongs 2 1) = true ∧
    openDb.interviewVisibleTo 1 4 = true ∧
    (∃ db', submitAnswer openDb ⟨1, 2, "O(n) because it iterates once", 4⟩ =
        (.ok openDb.nextAnswerId, db') ∧
      db'.records.statusOf openDb.nextAnswerId = some .pending ∧
      (openDb.nextAnswerId, (⟨1, 2, "O(n) because it iterates once", 4⟩ :
        SubmitRequest)) ∈ db'.answers ∧
      db'.scheduled = openDb.scheduled ++ [openDb.nextAnswerId]) :=
  ⟨by decide, by decide, by decide,
    submit_independent_of_assessor.2 openDb
      ⟨1, 2, "O(n) because it iterates once", 4⟩
      (by decide) (by decide) (by decide)⟩

/-! ## Polling loop lemmas -/

theorem pollTicks_le (fetch : Nat → Option EvalStatus) :
    ∀ (fuel a : Nat), pollTicks fetch a fuel ≤ fuel := by
  intro fuel
  induction fuel with
  | zero => intro a; simp [pollTicks]
  | succ n ih =>
    intro a
    rcases hf : fetch a with _ | st
    · simp [pollTicks, hf]
    · by_cases hst : st = .pending
      · simp only [pollTicks, hf, hst, if_pos]
        have := ih (a + 1)
        omega
      · simp [pollTicks, hf, hst]

theorem pollTicks_pos (fetch : Nat → Option EvalStatus) (fuel a : Nat)
    (h : 0 < fuel) : 1 ≤ pollTicks fetch a fuel := by
  rcases fuel with _ | n
  · omega
  · rcases hf : fetch a with _ | st
    · simp [pollTicks, hf]
    · by_cases hst : st = .pending
      · simp only [pollTicks, hf, hst, if_pos]
        omega
      · simp [pollTicks, hf, hst]

theorem pollTicks_early (fetch : Nat → Option EvalStatus) :
    ∀ (fuel a i : Nat), i + 1 < pollTicks fetch a fuel →
      fetch (a + i) = some .pending := by
  intro fuel
  induction fuel with
  | zero =>
    intro a i h
    simp [pollTicks] at h
  | succ n ih =>
    intro a i h
    rcases hf : fetch a with _ | st
    · simp [pollTicks, hf] at h
    · by_cases hst : st = .pending
      · subst hst
        rcases i with _ | k
        · simpa using hf
        · simp only [pollTicks, hf, if_pos] at h
          have h' : k + 1 < pollTicks fetch (a + 1) n := by omega
          have := ih (a + 1) k h'
          simpa [Nat.add_assoc, Nat.add_comm 1 k] using this
      · simp [pollTicks, hf, hst] at h

theorem pollTicks_stop (fetch : Nat → Option EvalStatus) :
    ∀ (fuel a : Nat), pollTicks fetch a fuel < fuel →
      fetch (a + (pollTicks fetch a fuel - 1)) ≠ some .pending := by
  intro fuel
  induction fuel with
  | zero =>
    intro a h
    omega
  | succ n ih =>
    intro a h
    rcases hf : fetch a with _ | st
    · simp [pollTicks, hf]
    · by_cases hst : st = .pending
      · subst hst
        simp only [pollTicks, hf, if_pos] at h ⊢
        have hx : pollTicks fetch (a + 1) n < n := by omega
        have hpos : 1 ≤ pollTicks fetch (a + 1) n :=
          pollTicks_pos fetch n (a + 1) (by omega)
        have := ih (a + 1) hx
        have harith : a + (1 + pollTicks fetch (a + 1) n - 1) =
            a + 1 + (pollTicks fetch (a + 1) n - 1) := by omega
        rw [harith]
        exact this
      · simp only [pollTicks, hf, hst, if_neg, Nat.sub_self]
        simpa [hst] using hf ▸ (by simp [hst] :
          (some st : Option EvalStatus) ≠ some .pending)

/-- Claim C8: the frontend status-polling loop always terminates — it performs at
most 30 one-second iterations, always at least one, every iteration before
the last fetched a pending status successfully, and when it stops before
exhausting the 30 attempts the final fetch either failed or returned a
status different from pending. -/
theorem poll_loop_terminates :
    ∀ fetch : Nat → Option EvalStatus,
      pollCount fetch ≤ maxPollAttempts ∧
      1 ≤ pollCount fetch ∧
      (∀ i, i + 1 < pollCount fetch → fetch i = some .pending) ∧
      (pollCount fetch < maxPollAttempts →
        fetch (pollCount fetch - 1) ≠ some .pending) := by
  intro fetch
  refine ⟨pollTicks_le fetch maxPollAttempts 0,
    pollTicks_pos fetch maxPollAttempts 0 (by simp [maxPollAttempts]), ?_, ?_⟩
  · intro i h
    have := pollTicks_early fetch maxPollAttempts 0 i h
    simpa using this
  · intro h
    have := pollTicks_stop fetch maxPollAttempts 0 h
    simpa using this

/-- Witness for C8: against an oracle that immediately reports completed,
the loop stops after its first iteration, before the attempt budget, and
the final fetch is not pending. -/
theorem poll_loop_terminates_witness :
    pollCount constCompletedFetch < maxPollAttempts ∧
    constCompletedFetch (pollCount constCompletedFetch - 1) ≠
      some .pending :=
  ⟨by decide, (poll_loop_terminates constCompletedFetch).2.2.2 (by decide)⟩

/-- Claim C9: isAuthenticated is total over all stored token values and returns
true exactly when a non-empty token is stored, its payload segment (index 1
of the dot-split) exists and decodes to a numeric exp claim, and the
current time is strictly before that claim converted to milliseconds; in
every other case — no token, empty token, no payload segment, or a
segment that cannot be decoded — it returns false. -/
theorem isAuthenticated_total_spec :
    ∀ (decodeExp : String → Option Int) (stored : Option String) (now : Int),
      isAuthenticated decodeExp stored now = true ↔
      (∃ token seg e, stored = some token ∧ token ≠ "" ∧
        (token.splitOn ".").get? 1 = some seg ∧
        decodeExp seg = some e ∧ now < e * 1000) := by
  intro decodeExp stored now
  rcases stored with _ | token
  · simp [isAuthenticated]
  · by_cases htok : token = ""
    · simp [isAuthenticated, htok]
    · rcases hseg : (token.splitOn ".")[1]? with _ | seg
      · simp [isAuthenticated, htok, hseg]
      · rcases hdec : decodeExp seg with _ | e
        · simp [isAuthenticated, htok, hseg, hdec]
        · simp [isAuthenticated, htok, hseg, hdec]

/-- Claim C10: for every failed API request the response interceptor rejects
with a payload whose message is the server's detail when it is a non-empty
string and a fixed fallback otherwise, whose status is the response status
(0 when no response arrived), and it removes the stored token and
redirects to /login exactly when the response status is 401. -/
theorem interceptor_reject_spec :
    (∀ (st : Int) (s : String), s ≠ "" →
        (responseInterceptorReject (.response st (some s))).1 =
          ⟨st, s⟩) ∧
    (∀ st : Int, (responseInterceptorReject (.response st none)).1 =
        ⟨st, "An error occurred"⟩) ∧
    (∀ st : Int,
        (responseInterceptorReject (.response st (some ""))).1 =
          ⟨st, "An error occurred"⟩) ∧
    ((responseInterceptorReject .request).1 =
        ⟨0, "Network error. Please check your connection."⟩) ∧
    (∀ f : AxiosFailure,
        (responseInterceptorReject f).2 = ⟨true, some "/login"⟩ ↔
        ∃ d, f = .response 401 d) ∧
    (∀ f : AxiosFailure,
        (responseInterceptorReject f).2 ≠ ⟨true, some "/login"⟩ →
        (responseInterceptorReject f).2 = ⟨false, none⟩) := by
  refine ⟨?_, ?_, ?_, rfl, ?_, ?_⟩
  · intro st s hs
    simp [responseInterceptorReject, jsStringOr, hs]
  · intro st
    simp [responseInterceptorReject, jsStringOr]
  · intro st
    simp [responseInterceptorReject, jsStringOr]
  · intro f
    cases f with
    | response st d =>
      by_cases h401 : st = 401
      · subst h401
        simp [responseInterceptorReject]
      · simp [responseInterceptorReject, h401]
    | request => simp [responseInterceptorReject]
    | setupError m => simp [responseInterceptorReject]
  · intro f h
    cases f with
    | response st d =>
      by_cases h401 : st = 401
      · subst h401
        simp [responseInterceptorReject] at h
      · simp [responseInterceptorReject, h401]
    | request => rfl
    | setupError m => rfl

/-- Witness for C10: a 401 response with detail "Invalid credentials"
rejects with that message, removes the token and redirects to /login. -/
theorem interceptor_reject_spec_witness :
    ("Invalid credentials" ≠ "") ∧
    (responseInterceptorReject (.response 401 (some "Invalid credentials"))).1 =
      ⟨401, "Invalid credentials"⟩ ∧
    (responseInterceptorReject (.response 401 (some "Invalid credentials"))).2 =
      ⟨true, some "/login"⟩ :=
  ⟨by decide,
    interceptor_reject_spec.1 401 "Invalid credentials" (by decide),
    by decide⟩

end AIEval
